import Mathlib

/-!
Verification of the connector-x core excerpt: the MySQL source
(`src/connectorx/src/sources/mysql/mod.rs`) and the Arrow destination
associations (`src/connectorx/src/destinations/arrow/arrow_assoc.rs`).

The Rust code is shallowly embedded: stateful methods become explicit
state-passing functions, driver I/O (connection pool, `query_first`,
`query_iter`, the SQL rewrite helpers `limit1_query` / `count_query` /
`get_limit`, which live outside the excerpt) becomes explicit inputs
describing the outcome of each driver call, and fallible Rust code
returns `Except`-style results.  Rust panics (`unimplemented!`,
division by zero) are modelled by explicit `panicked` / `none` outcomes.
-/

namespace ConnectorX

/-- Modelled from the spec: the repository file
`src/connectorx/src/sources/mysql/typesystem.rs` (declaring
`MysqlTypeSystem`) is not part of the excerpt.  Per the spec's data
model, a TypeSystem is a tagged enumeration of semantic column types
where "Each variant carries a *nullability* bit".  The variant names
follow the MySQL column types used by the source. -/
inductive MysqlTypeSystem
  | double (n : Bool)
  | long (n : Bool)
  | date (n : Bool)
  | time (n : Bool)
  | datetime (n : Bool)
  | decimal (n : Bool)
  | char (n : Bool)
  | varChar (n : Bool)
deriving DecidableEq

/-- The nullability bit carried by every `MysqlTypeSystem` variant. -/
def MysqlTypeSystem.nullable : MysqlTypeSystem → Bool
  | .double n | .long n | .date n | .time n
  | .datetime n | .decimal n | .char n | .varChar n => n

/-- The mutable metadata fields of `MysqlSource` that `fetch_metadata`
updates: `self.names` and `self.schema`. -/
structure MetaState where
  names : List String
  schema : List MysqlTypeSystem
deriving DecidableEq

/-- Outcome of probing one partition query inside the `fetch_metadata`
loop.  `rewriteErr` is a failure of the `limit1_query` rewrite (the `?`
on it aborts `fetch_metadata`); the other three are the result of
`conn.query_first` on the rewritten query: a row (with its column names
and the `MysqlTypeSystem` derived from each column descriptor), zero
rows (`Ok(None)`), or a driver error (recorded, loop continues). -/
inductive ProbeOutcome
  | rewriteErr (e : String)
  | row (cols : List (String × MysqlTypeSystem))
  | empty
  | err (e : String)
deriving DecidableEq

/-- Whether a probe outcome is `Ok(Some(row))`. -/
def ProbeOutcome.isRow : ProbeOutcome → Bool
  | .row _ => true
  | _ => false

/-- Whether a probe outcome is `Ok(None)` (the branch that leaves
`zero_tuple` untouched). -/
def ProbeOutcome.isZeroRow : ProbeOutcome → Bool
  | .empty => true
  | _ => false

/-- Errors `fetch_metadata` can return: a propagated `limit1_query`
rewrite error, a propagated `query_iter` error from the describe
fallback, or the final `anyhow!("Cannot get metadata ...", error)`
carrying the recorded last driver error. -/
inductive MetaError
  | rewrite (e : String)
  | describeFail (e : String)
  | noMetadata (last : Option String)
deriving DecidableEq

/-- The probing loop of `fetch_metadata` (mysql/mod.rs lines 78-104),
threading the mutable state `(self.names, self.schema)` together with
the local variables `success`, `zero_tuple` and `error`.  The final
component is a propagated rewrite error, `none` when the loop ran to
completion. -/
def probeLoop : List ProbeOutcome → MetaState → Bool → Bool → Option String →
    MetaState × Bool × Bool × Option String × Option MetaError
  | [], s, success, zeroTuple, lastErr => (s, success, zeroTuple, lastErr, none)
  | p :: rest, s, success, zeroTuple, lastErr =>
    match p with
    | .rewriteErr e => (s, success, zeroTuple, lastErr, some (.rewrite e))
    | .row cols =>
      probeLoop rest ⟨cols.map Prod.fst, cols.map Prod.snd⟩ true false lastErr
    | .empty => probeLoop rest s success zeroTuple lastErr
    | .err e => probeLoop rest s success false (some e)

/-- The `fetch_metadata` method of `MysqlSource` (mysql/mod.rs lines
71-131).  `probes` is the outcome of the LIMIT-1 probe of each query in
`self.queries` (declared order); `describe` is the outcome of the
fallback `query_iter` on the first query, giving the declared column
names.  Returns the updated state and the error, if any.  The
`assert!(self.queries.len() != 0)` at entry is reflected as the
nonemptiness hypothesis of the theorems below. -/
def fetch_metadata (probes : List ProbeOutcome)
    (describe : Except String (List String)) (s : MetaState) :
    MetaState × Option MetaError :=
  match probeLoop probes s false true none with
  | (s1, _, _, _, some e) => (s1, some e)
  | (s1, success, zeroTuple, lastErr, none) =>
    if success then (s1, none)
    else if zeroTuple then
      match describe with
      | .error e => (s1, some (.describeFail e))
      | .ok ns =>
        ({ names := ns, schema := ns.map fun _ => .varChar false }, none)
    else (s1, some (.noMetadata lastErr))

/-- The column list of the last probe that returned a row, if any. -/
def lastRowCols : List ProbeOutcome → Option (List (String × MysqlTypeSystem))
  | [] => none
  | p :: rest =>
    match lastRowCols rest with
    | some cs => some cs
    | none =>
      match p with
      | .row cs => some cs
      | _ => none

/-- The last driver error recorded by the probing loop, if any. -/
def lastDriverErr : List ProbeOutcome → Option String
  | [] => none
  | p :: rest =>
    match lastDriverErr rest with
    | some e => some e
    | none =>
      match p with
      | .err e => some e
      | _ => none

/-- Characterization of the probing loop when no `limit1_query` rewrite
fails: the state is overwritten by the last row-returning probe,
`success` records whether any probe returned a row, `zero_tuple` is
cleared by any row or driver error, and the last driver error is
recorded. -/
theorem probeLoop_eq (probes : List ProbeOutcome) :
    ∀ (s : MetaState) (success zeroTuple : Bool) (lastErr : Option String),
    (∀ e, ProbeOutcome.rewriteErr e ∉ probes) →
    probeLoop probes s success zeroTuple lastErr =
      ((match lastRowCols probes with
        | some cs => ⟨cs.map Prod.fst, cs.map Prod.snd⟩
        | none => s),
       success || probes.any ProbeOutcome.isRow,
       zeroTuple && probes.all ProbeOutcome.isZeroRow,
       (match lastDriverErr probes with
        | some e => some e
        | none => lastErr),
       none) := by
  induction probes with
  | nil => intro s success zeroTuple lastErr _; simp [probeLoop, lastRowCols, lastDriverErr]
  | cons p rest ih =>
    intro s success zeroTuple lastErr hnr
    have hnr' : ∀ e, ProbeOutcome.rewriteErr e ∉ rest := by
      intro e he
      exact hnr e (List.mem_cons_of_mem _ he)
    cases p with
    | rewriteErr e => exact absurd (List.mem_cons_self _ _) (fun h => hnr e h)
    | row cols =>
      rw [probeLoop, ih _ _ _ _ hnr']
      simp only [lastRowCols, lastDriverErr, List.any_cons, List.all_cons,
        ProbeOutcome.isRow, ProbeOutcome.isZeroRow, Bool.true_or, Bool.or_true,
        Bool.false_and, Bool.and_false]
      cases lastRowCols rest <;> cases lastDriverErr rest <;> simp
    | empty =>
      rw [probeLoop, ih _ _ _ _ hnr']
      simp only [lastRowCols, lastDriverErr, List.any_cons, List.all_cons,
        ProbeOutcome.isRow, ProbeOutcome.isZeroRow, Bool.false_or, Bool.true_and]
      cases lastRowCols rest <;> cases lastDriverErr rest <;> simp
    | err e =>
      rw [probeLoop, ih _ _ _ _ hnr']
      simp only [lastRowCols, lastDriverErr, List.any_cons, List.all_cons,
        ProbeOutcome.isRow, ProbeOutcome.isZeroRow, Bool.false_or,
        Bool.false_and, Bool.and_false]
      cases lastRowCols rest <;> cases lastDriverErr rest <;> simp

/-- The last row-returning probe is tracked by `lastRowCols` exactly when
some probe returns a row. -/
theorem lastRowCols_isSome (probes : List ProbeOutcome) :
    (lastRowCols probes).isSome = probes.any ProbeOutcome.isRow := by
  induction probes with
  | nil => rfl
  | cons p rest ih =>
    cases p <;>
      simp only [lastRowCols, List.any_cons, ProbeOutcome.isRow, Bool.true_or,
        Bool.false_or] <;>
      cases h : lastRowCols rest <;>
      simp_all

/-- If every probe outcome is `Ok(None)` then no row columns and no driver
error are recorded, and the loop flags stay at their defaults. -/
theorem probes_all_empty (probes : List ProbeOutcome)
    (h : ∀ p ∈ probes, p = ProbeOutcome.empty) :
    lastRowCols probes = none ∧ lastDriverErr probes = none ∧
      probes.any ProbeOutcome.isRow = false ∧
      probes.all ProbeOutcome.isZeroRow = true := by
  induction probes with
  | nil => exact ⟨rfl, rfl, rfl, rfl⟩
  | cons p rest ih =>
    have hp : p = ProbeOutcome.empty := h p (List.mem_cons_self _ _)
    have hrest := ih fun q hq => h q (List.mem_cons_of_mem _ hq)
    subst hp
    simp [lastRowCols, lastDriverErr, ProbeOutcome.isRow, ProbeOutcome.isZeroRow,
      hrest.1, hrest.2.1, hrest.2.2.1, hrest.2.2.2]

/-- If all probes returned zero rows then no driver error was recorded. -/
theorem lastDriverErr_of_all_zeroRow (probes : List ProbeOutcome)
    (h : probes.all ProbeOutcome.isZeroRow = true) :
    lastDriverErr probes = none := by
  induction probes with
  | nil => rfl
  | cons p rest ih =>
    simp only [List.all_cons, Bool.and_eq_true] at h
    cases p <;> simp_all [lastDriverErr, ProbeOutcome.isZeroRow]

/-- Claim C1 (amended): if every LIMIT-1 probe returns zero rows (with no
driver error), `fetch_metadata` falls back to the columns-only describe
of the first query and sets every column of the resulting schema to the
NON-nullable string type `VarChar(false)` (the code passes `false` for
the nullability bit), with names preserved in declared column order and
names and schema of equal length. -/
theorem c1_amended (probes : List ProbeOutcome) (ns : List String) (s : MetaState)
    (hne : probes ≠ []) (hall : ∀ p ∈ probes, p = ProbeOutcome.empty) :
    fetch_metadata probes (.ok ns) s =
        ({ names := ns, schema := ns.map fun _ => .varChar false }, none) ∧
      (fetch_metadata probes (.ok ns) s).1.names = ns ∧
      (fetch_metadata probes (.ok ns) s).1.names.length =
        (fetch_metadata probes (.ok ns) s).1.schema.length ∧
      ∀ t ∈ (fetch_metadata probes (.ok ns) s).1.schema,
        t = MysqlTypeSystem.varChar false := by
  have hnr : ∀ e, ProbeOutcome.rewriteErr e ∉ probes := by
    intro e he
    exact absurd (hall _ he) (by simp)
  obtain ⟨h1, h2, h3, h4⟩ := probes_all_empty probes hall
  have hmain : fetch_metadata probes (.ok ns) s =
      ({ names := ns, schema := ns.map fun _ => .varChar false }, none) := by
    rw [fetch_metadata, probeLoop_eq probes s false true none hnr]
    simp [h1, h2, h3, h4]
  refine ⟨hmain, ?_, ?_, ?_⟩
  · rw [hmain]
  · rw [hmain]; simp
  · rw [hmain]
    intro t ht
    simp only [List.mem_map] at ht
    obtain ⟨x, _, hx⟩ := ht
    exact hx.symm

/-- Witness for `c1_amended` at a concrete input: one query whose probe
returns zero rows and whose describe reports columns `a`, `b`. -/
theorem c1_amended_witness :
    fetch_metadata [ProbeOutcome.empty] (.ok ["a", "b"]) ⟨[], []⟩ =
        ({ names := ["a", "b"],
           schema := ["a", "b"].map fun _ => .varChar false }, none) ∧
      (fetch_metadata [ProbeOutcome.empty] (.ok ["a", "b"]) ⟨[], []⟩).1.names = ["a", "b"] ∧
      (fetch_metadata [ProbeOutcome.empty] (.ok ["a", "b"]) ⟨[], []⟩).1.names.length =
        (fetch_metadata [ProbeOutcome.empty] (.ok ["a", "b"]) ⟨[], []⟩).1.schema.length ∧
      ∀ t ∈ (fetch_metadata [ProbeOutcome.empty] (.ok ["a", "b"]) ⟨[], []⟩).1.schema,
        t = MysqlTypeSystem.varChar false :=
  c1_amended [ProbeOutcome.empty] ["a", "b"] ⟨[], []⟩ (by decide)
    (by intro p hp; simp only [List.mem_singleton] at hp; exact hp)

/-- Claim C1 fails as stated: on an all-zero-rows input the fallback runs
(no error, names from the describe), but the resulting schema columns are
NOT nullable: the code sets `VarChar(false)`. -/
theorem c1_counterexample :
    (fetch_metadata [ProbeOutcome.empty] (.ok ["a", "b"]) ⟨[], []⟩).2 = none ∧
      (fetch_metadata [ProbeOutcome.empty] (.ok ["a", "b"]) ⟨[], []⟩).1.names = ["a", "b"] ∧
      ((fetch_metadata [ProbeOutcome.empty] (.ok ["a", "b"]) ⟨[], []⟩).1.schema.all
        MysqlTypeSystem.nullable) = false :=
  ⟨rfl, rfl, rfl⟩

/-- Claim C3 (amended): when at least one LIMIT-1 probe returns a row (and
no `limit1_query` rewrite fails), the names and schema recorded on return
are those derived from the LAST query whose probe returned a row — the
probe loop does not stop at the first success, and every later successful
probe overwrites the recorded names and schema. -/
theorem c3_amended (probes : List ProbeOutcome)
    (cs : List (String × MysqlTypeSystem))
    (describe : Except String (List String)) (s : MetaState)
    (hnr : ∀ e, ProbeOutcome.rewriteErr e ∉ probes)
    (hlast : lastRowCols probes = some cs) :
    fetch_metadata probes describe s =
      ({ names := cs.map Prod.fst, schema := cs.map Prod.snd }, none) := by
  have hrow : probes.any ProbeOutcome.isRow = true := by
    rw [← lastRowCols_isSome, hlast]; rfl
  rw [fetch_metadata, probeLoop_eq probes s false true none hnr]
  simp [hlast, hrow]

/-- Witness for `c3_amended`: two probes both return rows; the recorded
metadata comes from the second. -/
theorem c3_amended_witness :
    fetch_metadata
        [ProbeOutcome.row [("a", .long false)], ProbeOutcome.row [("b", .varChar true)]]
        (.ok []) ⟨[], []⟩ =
      ({ names := [("b", MysqlTypeSystem.varChar true)].map Prod.fst,
         schema := [("b", MysqlTypeSystem.varChar true)].map Prod.snd }, none) :=
  c3_amended _ [("b", .varChar true)] (.ok []) ⟨[], []⟩
    (by intro e he; simp at he) rfl

/-- Claim C3 fails as stated: with two row-returning probes (first reports
column `a`, second column `b`), the recorded names are `["b"]` — from the
LAST successful probe, not the first. -/
theorem c3_counterexample :
    (fetch_metadata
        [ProbeOutcome.row [("a", .long false)], ProbeOutcome.row [("b", .varChar false)]]
        (.ok []) ⟨[], []⟩).1.names = ["b"] ∧
      (["b"] : List String) ≠ ["a"] :=
  ⟨rfl, by decide⟩

/-- Claim C7: if no LIMIT-1 probe returns a row and at least one probe
failed with a driver error (and no `limit1_query` rewrite fails, which
would abort instead), `fetch_metadata` returns the error reporting the
last driver error encountered, and names and schema are left unchanged. -/
theorem c7_last_error (probes : List ProbeOutcome)
    (describe : Except String (List String)) (s : MetaState) (e : String)
    (hnr : ∀ er, ProbeOutcome.rewriteErr er ∉ probes)
    (hnorow : probes.any ProbeOutcome.isRow = false)
    (hlast : lastDriverErr probes = some e) :
    fetch_metadata probes describe s = (s, some (.noMetadata (some e))) := by
  have hrow : lastRowCols probes = none := by
    have := lastRowCols_isSome probes
    rw [hnorow] at this
    exact Option.not_isSome_iff_eq_none.mp (by simp [this])
  have hzt : probes.all ProbeOutcome.isZeroRow = false := by
    cases h : probes.all ProbeOutcome.isZeroRow
    · rfl
    · rw [lastDriverErr_of_all_zeroRow probes h] at hlast; cases hlast
  rw [fetch_metadata, probeLoop_eq probes s false true none hnr]
  simp [hrow, hzt, hnorow, hlast]

/-- Witness for `c7_last_error`: two probes fail with driver errors, one
returns zero rows; the reported error carries the last driver error. -/
theorem c7_last_error_witness :
    fetch_metadata
        [ProbeOutcome.err "boom1", ProbeOutcome.empty, ProbeOutcome.err "boom2"]
        (.ok ["x"]) ⟨["n"], [.long false]⟩ =
      (⟨["n"], [.long false]⟩, some (.noMetadata (some "boom2"))) :=
  c7_last_error _ (.ok ["x"]) ⟨["n"], [.long false]⟩ "boom2"
    (by intro er he; simp at he) rfl rfl

/-- Errors the `prepare` method can produce: a failed `get_limit` parse, a
failed `count_query` rewrite, a driver error running the count query, or
the `anyhow!("mysql failed to get the count of query ...")` raised when
the count query yields no row. -/
inductive PrepareError
  | limitRewrite (e : String)
  | countRewrite (e : String)
  | driver (e : String)
  | noCountRow
deriving DecidableEq

/-- The `prepare` method of `MysqlSourcePartition` (mysql/mod.rs lines
182-197).  `limitRes` is the outcome of `get_limit` on the partition
query (an explicit `LIMIT n` clause, if present), `countRw` the outcome
of the `count_query` rewrite, and `countRes` the outcome of
`query_first` on the count query.  Returns the computed `nrows` (or the
error) together with a flag recording whether the count query was
issued. -/
def prepare (limitRes : Except String (Option Nat))
    (countRw : Except String Unit)
    (countRes : Except String (Option Nat)) : Except PrepareError Nat × Bool :=
  match limitRes with
  | .error e => (.error (.limitRewrite e), false)
  | .ok (some n) => (.ok n, false)
  | .ok none =>
    match countRw with
    | .error e => (.error (.countRewrite e), false)
    | .ok _ =>
      match countRes with
      | .error e => (.error (.driver e), true)
      | .ok none => (.error .noCountRow, true)
      | .ok (some m) => (.ok m, true)

/-- Claim C4: if the query carries an explicit `LIMIT n` clause then
`prepare` sets `nrows = n` and issues no `COUNT(*)` query; otherwise
`nrows` is the result of the `COUNT(*)` rewrite of the query, and
`prepare` returns an error if the count query fails or yields no row. -/
theorem c4_prepare (limitRes : Except String (Option Nat))
    (countRw : Except String Unit) (countRes : Except String (Option Nat)) :
    (∀ n, limitRes = .ok (some n) →
        prepare limitRes countRw countRes = (.ok n, false)) ∧
      (limitRes = .ok none → countRw = .ok () →
        ((∀ m, countRes = .ok (some m) →
            prepare limitRes countRw countRes = (.ok m, true)) ∧
          (countRes = .ok none →
            prepare limitRes countRw countRes = (.error .noCountRow, true)) ∧
          (∀ e, countRes = .error e →
            prepare limitRes countRw countRes = (.error (.driver e), true)))) := by
  refine ⟨?_, ?_⟩
  · intro n hn; subst hn; rfl
  · intro hl hc
    subst hl; subst hc
    refine ⟨?_, ?_, ?_⟩
    · intro m hm; subst hm; rfl
    · intro hm; subst hm; rfl
    · intro e he; subst he; rfl

/-- Witness for `c4_prepare` at concrete inputs: a query with explicit
`LIMIT 7` records `nrows = 7` without issuing a count query, and without
a limit the count result `5` is recorded with the count query issued. -/
theorem c4_prepare_witness :
    prepare (.ok (some 7)) (.ok ()) (.ok (some 5)) = (.ok 7, false) ∧
      prepare (.ok none) (.ok ()) (.ok (some 5)) = (.ok 5, true) ∧
      prepare (.ok none) (.ok ()) (.ok none) = (.error .noCountRow, true) ∧
      prepare (.ok none) (.ok ()) (.error "down") = (.error (.driver "down"), true) :=
  ⟨(c4_prepare (.ok (some 7)) (.ok ()) (.ok (some 5))).1 7 rfl,
   ((c4_prepare (.ok none) (.ok ()) (.ok (some 5))).2 rfl rfl).1 5 rfl,
   ((c4_prepare (.ok none) (.ok ()) (.ok none)).2 rfl rfl).2.1 rfl,
   ((c4_prepare (.ok none) (.ok ()) (.error "down")).2 rfl rfl).2.2 "down" rfl⟩

/-- Errors raised by the partition parser: the `anyhow!("Mysql EOF")`
raised when a refill yields zero rows, the propagated driver error from
`item?` while refilling, and the `ok_or_else` error of the non-option
`produce` when the driver returns no value at a cell. -/
inductive ParseError
  | eof
  | driver (e : String)
  | cannotProduce (ridx cidx : Nat)
deriving DecidableEq

/-- Result of one parser step.  `panicked` models a Rust panic (here:
division or modulo by zero in the cursor advance, or an out-of-bounds
`rowbuf[ridx]` index). -/
inductive StepResult (α : Type)
  | panicked
  | error (e : ParseError)
  | ok (a : α)
deriving DecidableEq

/-- Decidable equality for `Except`, used to compute with concrete
parser states. -/
instance {ε α : Type} [DecidableEq ε] [DecidableEq α] : DecidableEq (Except ε α) :=
  fun x y =>
    match x, y with
    | .ok a, .ok b =>
      if h : a = b then isTrue (by rw [h])
      else isFalse (by intro hc; injection hc; exact h (by assumption))
    | .ok _, .error _ => isFalse (by intro hc; exact Except.noConfusion hc)
    | .error _, .ok _ => isFalse (by intro hc; exact Except.noConfusion hc)
    | .error a, .error b =>
      if h : a = b then isTrue (by rw [h])
      else isFalse (by intro hc; injection hc; exact h (by assumption))

/-- The state of `MysqlSourcePartitionParser` (mysql/mod.rs lines
218-225).  A driver row is a list of cells, each cell an `Option α`
(`none` = SQL NULL); the remaining driver iterator is a list of
`Except`-items mirroring the `Result<Row>` items yielded by
`query_iter`. -/
structure ParserState (α : Type) where
  iter : List (Except String (List (Option α)))
  buf_size : Nat
  rowbuf : List (List (Option α))
  ncols : Nat
  current_row : Nat
  current_col : Nat
deriving DecidableEq

/-- The constructor `MysqlSourcePartitionParser::new` (mysql/mod.rs lines
228-241): empty row buffer, `ncols` taken from the schema length, cursor
at `(0, 0)`. -/
def newParser {α : Type} (iter : List (Except String (List (Option α))))
    (schema : List MysqlTypeSystem) (buf_size : Nat) : ParserState α :=
  { iter := iter, buf_size := buf_size, rowbuf := [],
    ncols := schema.length, current_row := 0, current_col := 0 }

/-- The refill loop of `next_loc` (mysql/mod.rs lines 249-255): pull up
to `n` items from the iterator, stopping early when the iterator is
exhausted or an item is a driver error (`item?`).  Returns the rows
pushed so far, the remaining iterator, and the propagated driver error
if any. -/
def refill {α : Type} : Nat → List (Except String (List (Option α))) →
    List (List (Option α)) × List (Except String (List (Option α))) × Option String
  | 0, iter => ([], iter, none)
  | _ + 1, [] => ([], [], none)
  | n + 1, .ok r :: rest =>
    let t := refill n rest
    (r :: t.1, t.2.1, t.2.2)
  | _ + 1, .error e :: rest => ([], rest, some e)

/-- The `next_loc` method (mysql/mod.rs lines 243-267).  When the cursor
has passed the buffered rows, the buffer is drained and refilled from
the iterator; an empty refill raises the `Mysql EOF` error.  Then the
current position is returned and the cursor advanced by
`current_row += (current_col + 1) / ncols; current_col = (current_col +
1) % ncols`, which in Rust panics when `ncols = 0`.  The updated parser
state is returned alongside the result (mirroring `&mut self`). -/
def next_loc {α : Type} (s : ParserState α) :
    StepResult (Nat × Nat) × ParserState α :=
  let pre : StepResult Unit × ParserState α :=
    if s.rowbuf.length ≤ s.current_row then
      let r := refill s.buf_size s.iter
      let s1 : ParserState α := { s with rowbuf := r.1, iter := r.2.1 }
      match r.2.2 with
      | some e => (.error (.driver e), s1)
      | none =>
        if s1.rowbuf.isEmpty then (.error .eof, s1)
        else (.ok (), { s1 with current_row := 0, current_col := 0 })
    else (.ok (), s)
  match pre with
  | (.ok _, t) =>
    if t.ncols = 0 then (.panicked, t)
    else
      ((.ok (t.current_row, t.current_col)),
        { t with
            current_row := t.current_row + (t.current_col + 1) / t.ncols,
            current_col := (t.current_col + 1) % t.ncols })
  | (.error e, t) => (.error e, t)
  | (.panicked, t) => (.panicked, t)

/-- One produce call exposing the cell location it consumed: `next_loc`
followed by the cell lookup `rowbuf[ridx].get(cidx)` of the
`impl_produce` macro (mysql/mod.rs lines 274-294).  `rowbuf[ridx]`
panics when out of bounds; the driver `get` is modelled from the spec:
"For `Option<T>` the parser returns `None` on SQL NULL, `Some(v)`
otherwise", so the cell value is `none` when the driver has no value at
that position. -/
def produceLoc {α : Type} (s : ParserState α) :
    StepResult ((Nat × Nat) × Option α) × ParserState α :=
  match next_loc s with
  | (.ok rc, s1) =>
    match s1.rowbuf.get? rc.1 with
    | none => (.panicked, s1)
    | some row => (.ok (rc, (row.get? rc.2).join), s1)
  | (.error e, s1) => (.error e, s1)
  | (.panicked, s1) => (.panicked, s1)

/-- The `Produce<Option<T>>` implementation: returns the cell as an
option (`none` on SQL NULL). -/
def produceOption {α : Type} (s : ParserState α) :
    StepResult (Option α) × ParserState α :=
  match produceLoc s with
  | (.ok rv, s1) => (.ok rv.2, s1)
  | (.error e, s1) => (.error e, s1)
  | (.panicked, s1) => (.panicked, s1)

/-- The `Produce<T>` implementation: a missing value
(`ok_or_else(...)`) is the fatal `cannot produce` error. -/
def produceValue {α : Type} (s : ParserState α) :
    StepResult α × ParserState α :=
  match produceLoc s with
  | (.ok rv, s1) =>
    match rv.2 with
    | some v => (.ok v, s1)
    | none => (.error (.cannotProduce rv.1.1 rv.1.2), s1)
  | (.error e, s1) => (.error e, s1)
  | (.panicked, s1) => (.panicked, s1)

/-- Claim C5: when the cursor has passed the buffered rows and the refill
encounters no driver error, `next_loc` drains the buffer, pulls up to
`buf_size` rows, and returns the EOF error if and only if the refill
yields zero rows; a non-empty refill resets the cursor to the start of
the new buffer and produces the next cell (position `(0, 0)`) normally,
advancing the cursor as usual. -/
theorem c5_next_loc {α : Type} (s : ParserState α)
    (pulled : List (List (Option α)))
    (iter1 : List (Except String (List (Option α))))
    (hC : 1 ≤ s.ncols)
    (hu : s.rowbuf.length ≤ s.current_row)
    (hr : refill s.buf_size s.iter = (pulled, iter1, none)) :
    ((next_loc s).1 = .error .eof ↔ pulled = []) ∧
      (pulled = [] →
        next_loc s = (.error .eof, { s with rowbuf := pulled, iter := iter1 })) ∧
      (pulled ≠ [] →
        next_loc s = (.ok (0, 0),
          { s with
              rowbuf := pulled, iter := iter1,
              current_row := 0 + (0 + 1) / s.ncols,
              current_col := (0 + 1) % s.ncols })) := by
  have hC0 : s.ncols ≠ 0 := Nat.pos_iff_ne_zero.mp hC
  rw [next_loc]
  simp only [if_pos hu, hr]
  cases pulled with
  | nil => simp
  | cons r rs =>
    simp [hC0, List.isEmpty]

/-- Witness for `c5_next_loc`: a single-column parser whose buffer is
exhausted and whose iterator holds one further row; the refill succeeds
and the next cell is produced at position `(0, 0)`. -/
theorem c5_next_loc_witness :
    ((next_loc (ParserState.mk [Except.ok [some (1 : Nat)]] 1 [] 1 0 0)).1 =
        .error .eof ↔ ([[some (1 : Nat)]] : List (List (Option Nat))) = []) ∧
      (([[some (1 : Nat)]] : List (List (Option Nat))) = [] →
        next_loc (ParserState.mk [Except.ok [some (1 : Nat)]] 1 [] 1 0 0) =
          (.error .eof,
            { (ParserState.mk [Except.ok [some (1 : Nat)]] 1 [] 1 0 0) with
                rowbuf := [[some 1]], iter := [] })) ∧
      (([[some (1 : Nat)]] : List (List (Option Nat))) ≠ [] →
        next_loc (ParserState.mk [Except.ok [some (1 : Nat)]] 1 [] 1 0 0) =
          (.ok (0, 0),
            { (ParserState.mk [Except.ok [some (1 : Nat)]] 1 [] 1 0 0) with
                rowbuf := [[some 1]]
                iter := []
                current_row := 0 + (0 + 1) / 1
                current_col := (0 + 1) % 1 })) :=
  c5_next_loc (ParserState.mk [Except.ok [some (1 : Nat)]] 1 [] 1 0 0)
    [[some 1]] [] (by decide) (by decide) rfl

/-- Claim C8 (amended): over an empty schema (`ncols = 0`) no produce
call ever succeeds: a call that reaches the cursor advance (a row is
available in the buffer or arrives by refill) panics with division and
modulo by zero, but a call whose refill finds the driver exhausted
returns the EOF error rather than panicking.  Produce therefore carries
the unstated precondition `ncols >= 1`. -/
theorem c8_amended {α : Type} (s : ParserState α) (h : s.ncols = 0) :
    (∀ v t, produceLoc s ≠ (.ok v, t)) ∧
      (∀ p t, next_loc s ≠ (.ok p, t)) ∧
      (s.current_row < s.rowbuf.length → next_loc s = (.panicked, s)) ∧
      (∀ pulled iter1, s.rowbuf.length ≤ s.current_row →
        refill s.buf_size s.iter = (pulled, iter1, none) →
        (pulled = [] →
          next_loc s = (.error .eof, { s with rowbuf := pulled, iter := iter1 })) ∧
        (pulled ≠ [] →
          next_loc s = (.panicked,
            { s with
                rowbuf := pulled, iter := iter1,
                current_row := 0, current_col := 0 }))) := by
  have hnext : ∀ p t, next_loc s ≠ (.ok p, t) := by
    intro p t hok
    rw [next_loc] at hok
    by_cases hu : s.rowbuf.length ≤ s.current_row
    · simp only [if_pos hu] at hok
      cases he : (refill s.buf_size s.iter).2.2 with
      | some e => rw [he] at hok; simp at hok
      | none =>
        rw [he] at hok
        by_cases hempty : (refill s.buf_size s.iter).1.isEmpty
        · simp [hempty] at hok
        · simp [hempty, h] at hok
    · simp [if_neg hu, h] at hok
  refine ⟨?_, hnext, ?_, ?_⟩
  · intro v t hok
    rw [produceLoc] at hok
    cases hn : next_loc s with
    | mk res s1 =>
      cases res with
      | ok rc =>
        exact hnext rc s1 hn
      | error e => rw [hn] at hok; simp at hok
      | panicked => rw [hn] at hok; simp at hok
  · intro hlt
    rw [next_loc]
    simp [Nat.not_le.mpr hlt, h]
  · intro pulled iter1 hu hr
    constructor
    · intro hp
      subst hp
      rw [next_loc]
      simp [if_pos hu, hr]
    · intro hp
      rw [next_loc]
      simp only [if_pos hu, hr]
      cases pulled with
      | nil => exact absurd rfl hp
      | cons r rs => simp [List.isEmpty, h]

/-- Witness for `c8_amended`: a freshly constructed parser over the empty
schema with one buffered-up driver row; its components are instantiated
at that parser. -/
theorem c8_amended_witness :
    (∀ v t, produceLoc (newParser [Except.ok [some (1 : Nat)]] [] 32) ≠ (.ok v, t)) ∧
      (∀ p t, next_loc (newParser [Except.ok [some (1 : Nat)]] [] 32) ≠ (.ok p, t)) ∧
      ((newParser [Except.ok [some (1 : Nat)]] ([] : List MysqlTypeSystem) 32).current_row <
          (newParser [Except.ok [some (1 : Nat)]] ([] : List MysqlTypeSystem) 32).rowbuf.length →
        next_loc (newParser [Except.ok [some (1 : Nat)]] [] 32) =
          (.panicked, newParser [Except.ok [some (1 : Nat)]] [] 32)) ∧
      (∀ pulled iter1,
        (newParser [Except.ok [some (1 : Nat)]] ([] : List MysqlTypeSystem) 32).rowbuf.length ≤
          (newParser [Except.ok [some (1 : Nat)]] ([] : List MysqlTypeSystem) 32).current_row →
        refill 32 [Except.ok [some (1 : Nat)]] = (pulled, iter1, none) →
        (pulled = [] →
          next_loc (newParser [Except.ok [some (1 : Nat)]] [] 32) =
            (.error .eof,
              { (newParser [Except.ok [some (1 : Nat)]] [] 32) with
                  rowbuf := pulled, iter := iter1 })) ∧
        (pulled ≠ [] →
          next_loc (newParser [Except.ok [some (1 : Nat)]] [] 32) =
            (.panicked,
              { (newParser [Except.ok [some (1 : Nat)]] [] 32) with
                  rowbuf := pulled
                  iter := iter1
                  current_row := 0
                  current_col := 0 }))) :=
  c8_amended (newParser [Except.ok [some (1 : Nat)]] [] 32) rfl

/-- Claim C8 fails as stated: over an empty schema, a produce call whose
refill finds no rows returns the EOF error as an ordinary `Result`
rather than panicking. -/
theorem c8_counterexample :
    produceLoc (newParser ([] : List (Except String (List (Option Nat)))) [] 32) =
        (.error .eof, { (newParser ([] : List (Except String (List (Option Nat)))) [] 32) with
            rowbuf := [], iter := [] }) ∧
      (produceLoc (newParser ([] : List (Except String (List (Option Nat)))) [] 32)).1 ≠
        .panicked := by
  constructor
  · rfl
  · decide

/-- Instrumented driver of successive produce calls: runs `n` produce
calls (via `produceLoc`), keeping a count `drained` of the rows removed
from the buffer by the drains so far, and collecting the LOGICAL
position of each produced cell — `(drained + ridx, cidx)`, where
`drained` accounts for the drain performed by the call itself (the
refill condition `rowbuf.len() <= current_row` is read off the pre-call
state, exactly as `next_loc` does). -/
def runTrace {α : Type} : Nat → Nat → ParserState α →
    StepResult (List (Nat × Nat)) × Nat × ParserState α
  | 0, drained, s => (.ok [], drained, s)
  | n + 1, drained, s =>
    let d1 := if s.rowbuf.length ≤ s.current_row
      then drained + s.rowbuf.length else drained
    match produceLoc s with
    | (.ok rv, s1) =>
      match runTrace n d1 s1 with
      | (.ok ps, d2, s2) => (.ok ((d1 + rv.1.1, rv.1.2) :: ps), d2, s2)
      | (.error e, d2, s2) => (.error e, d2, s2)
      | (.panicked, d2, s2) => (.panicked, d2, s2)
    | (.error e, s1) => (.error e, d1, s1)
    | (.panicked, s1) => (.panicked, d1, s1)

/-- The row-major sequence of logical cell positions for `m` rows of `c`
columns starting at row `r0`. -/
def rowMajorRows (r0 : Nat) : Nat → Nat → List (Nat × Nat)
  | 0, _ => []
  | m + 1, c => ((List.range c).map fun j => (r0, j)) ++ rowMajorRows (r0 + 1) m c

/-- Refilling from an iterator of successfully decoded rows pulls the
first `n` rows and leaves the rest, with no driver error. -/
theorem refill_map_ok {α : Type} (n : Nat) :
    ∀ rows : List (List (Option α)),
    refill n (rows.map Except.ok) =
      (rows.take n, (rows.drop n).map Except.ok, none) := by
  induction n with
  | zero => intro rows; simp [refill]
  | succ n ih =>
    intro rows
    cases rows with
    | nil => simp [refill]
    | cons r rest => simp [refill, ih rest]

/-- Running `m + n` produce calls is running `m`, then `n` more from the
resulting state, concatenating the recorded positions. -/
theorem runTrace_add {α : Type} (m n : Nat) :
    ∀ (d : Nat) (s : ParserState α),
    runTrace (m + n) d s =
      match runTrace m d s with
      | (.ok ps, d1, s1) =>
        match runTrace n d1 s1 with
        | (.ok qs, d2, s2) => (.ok (ps ++ qs), d2, s2)
        | (.error e, d2, s2) => (.error e, d2, s2)
        | (.panicked, d2, s2) => (.panicked, d2, s2)
      | (.error e, d1, s1) => (.error e, d1, s1)
      | (.panicked, d1, s1) => (.panicked, d1, s1) := by
  induction m with
  | zero =>
    intro d s
    rw [Nat.zero_add]
    rcases h : runTrace n d s with ⟨res, d2, s2⟩
    cases res <;> simp [runTrace, h]
  | succ m ih =>
    intro d s
    have hms : m + 1 + n = (m + n) + 1 := by omega
    rw [hms]
    rw [runTrace]
    conv_rhs => rw [runTrace]
    rcases hp : produceLoc s with ⟨res, s1⟩
    cases res with
    | ok rv =>
      simp only []
      rw [ih]
      rcases h1 : runTrace m (if s.rowbuf.length ≤ s.current_row
          then d + s.rowbuf.length else d) s1 with ⟨res1, d2, s2⟩
      cases res1 with
      | ok ps =>
        rcases h2 : runTrace n d2 s2 with ⟨res2, d3, s3⟩
        cases res2 <;> simp [h2]
      | error e => simp
      | panicked => simp
    | error e => simp
    | panicked => simp

/-- A produce call with the cursor still inside the buffer returns the
cursor position and advances it, with no refill. -/
theorem produceLoc_no_refill {α : Type} (s : ParserState α)
    (hcr : s.current_row < s.rowbuf.length) (hC : s.ncols ≠ 0) :
    ∃ v, produceLoc s =
      (.ok ((s.current_row, s.current_col), v),
        { s with
            current_row := s.current_row + (s.current_col + 1) / s.ncols,
            current_col := (s.current_col + 1) % s.ncols }) := by
  have hnot : ¬ (s.rowbuf.length ≤ s.current_row) := Nat.not_le.mpr hcr
  have hnl : next_loc s =
      (.ok (s.current_row, s.current_col),
        { s with
            current_row := s.current_row + (s.current_col + 1) / s.ncols,
            current_col := (s.current_col + 1) % s.ncols }) := by
    rw [next_loc]
    simp [hnot, hC]
  obtain ⟨row, hrow⟩ : ∃ row, s.rowbuf[s.current_row]? = some row :=
    ⟨s.rowbuf[s.current_row], List.getElem?_eq_getElem hcr⟩
  refine ⟨(row.get? s.current_col).join, ?_⟩
  rw [produceLoc, hnl]
  simp [hrow]

/-- Produce calls across one buffered row: starting at column 0 offset
`j + 1` from the end of the row, the `j + 1` calls return the row's
remaining cells in column order and leave the cursor at the start of
the next row, without draining. -/
theorem row_run {α : Type} (j : Nat) :
    ∀ (s : ParserState α) (d : Nat), s.ncols ≠ 0 →
    s.current_row < s.rowbuf.length →
    s.current_col + (j + 1) = s.ncols →
    runTrace (j + 1) d s =
      (.ok ((List.range (j + 1)).map fun i => (d + s.current_row, s.current_col + i)),
       d, { s with current_row := s.current_row + 1, current_col := 0 }) := by
  induction j with
  | zero =>
    intro s d hC hcr hcc
    have hnot : ¬ (s.rowbuf.length ≤ s.current_row) := Nat.not_le.mpr hcr
    obtain ⟨v, hp⟩ := produceLoc_no_refill s hcr hC
    have hone : s.current_col + 1 = s.ncols := by omega
    rw [hone, Nat.div_self (Nat.pos_of_ne_zero hC), Nat.mod_self] at hp
    rw [runTrace]
    simp [hnot, hp, runTrace, List.range_succ]
  | succ j ih =>
    intro s d hC hcr hcc
    have hnot : ¬ (s.rowbuf.length ≤ s.current_row) := Nat.not_le.mpr hcr
    obtain ⟨v, hp⟩ := produceLoc_no_refill s hcr hC
    have hlt : s.current_col + 1 < s.ncols := by omega
    rw [Nat.div_eq_of_lt hlt, Nat.mod_eq_of_lt hlt, Nat.add_zero] at hp
    have hstep := ih { s with current_col := s.current_col + 1 } d hC hcr
      (by simp; omega)
    rw [runTrace]
    simp only [hnot, if_false, hp, hstep]
    have hf : (fun i => (d + s.current_row, s.current_col + 1 + i)) =
        fun i => (d + s.current_row, s.current_col + (i + 1)) := by
      funext i
      congr 1
      omega
    simp [List.range_succ_eq_map, List.map_map, Function.comp, hf]

/-- Produce calls across the rest of the buffer: starting at a row
boundary `m` rows from the end of the buffer, the `m * ncols` calls
return those rows' cells in row-major order and leave the cursor just
past the buffer, without draining. -/
theorem buf_run {α : Type} (m : Nat) :
    ∀ (s : ParserState α) (d : Nat), s.ncols ≠ 0 →
    s.current_col = 0 →
    s.current_row + m = s.rowbuf.length →
    runTrace (m * s.ncols) d s =
      (.ok (rowMajorRows (d + s.current_row) m s.ncols), d,
       { s with current_row := s.rowbuf.length, current_col := 0 }) := by
  induction m with
  | zero =>
    intro s d hC hcc hcr
    obtain ⟨it, B, rb, C, cr, cc⟩ := s
    simp only at hcc hcr ⊢
    subst hcc
    have hcr' : cr = rb.length := by omega
    subst hcr'
    simp [runTrace, rowMajorRows]
  | succ m ih =>
    intro s d hC hcc hcr
    have hsplit : (m + 1) * s.ncols = s.ncols + m * s.ncols := by ring
    rw [hsplit, runTrace_add]
    obtain ⟨j, hj⟩ : ∃ j, s.ncols = j + 1 := ⟨s.ncols - 1, by omega⟩
    have hcrlt : s.current_row < s.rowbuf.length := by omega
    have hrr := row_run j s d hC hcrlt (by omega)
    rw [← hj] at hrr
    have hih := ih { s with current_row := s.current_row + 1, current_col := 0 }
      d hC rfl (by simp; omega)
    dsimp only at hih
    rw [hrr]
    simp only []
    rw [hih]
    simp [rowMajorRows, hcc, ← Nat.add_assoc]

/-- When the buffer is exhausted and the pending iterator consists of
successfully decoded rows, `next_loc` behaves exactly as it would on the
state where the drain-and-refill has already been performed. -/
theorem next_loc_refill {α : Type} (s : ParserState α)
    (rows : List (List (Option α))) (hrows : rows ≠ [])
    (hB : 1 ≤ s.buf_size) (hiter : s.iter = rows.map Except.ok)
    (hcr : s.rowbuf.length ≤ s.current_row) :
    next_loc s = next_loc
      { s with rowbuf := rows.take s.buf_size,
               iter := (rows.drop s.buf_size).map Except.ok,
               current_row := 0, current_col := 0 } := by
  have htake : rows.take s.buf_size ≠ [] := by
    intro h
    rcases List.take_eq_nil_iff.mp h with h1 | h1
    · omega
    · exact hrows h1
  conv_lhs => rw [next_loc]
  conv_rhs => rw [next_loc]
  simp only [if_pos hcr, hiter, refill_map_ok]
  have hlen : ¬ ((rows.take s.buf_size).length ≤ 0) := by
    have h1 : 0 < rows.length := List.length_pos.mpr hrows
    simp only [List.length_take, Nat.not_le]
    omega
  simp only [List.map_drop]
  rw [if_neg hlen]
  have hf : (rows.take s.buf_size).isEmpty = false := by
    simp [List.isEmpty_iff, htake]
  simp [hf]

/-- Running produce calls from a state whose buffer is exhausted is the
same as running them from the already-drained-and-refilled state, with
the drained counter advanced by the discarded buffer's length. -/
theorem runTrace_refill_eq {α : Type} (n : Nat) (hn : 1 ≤ n) (d : Nat)
    (s : ParserState α) (rows : List (List (Option α))) (hrows : rows ≠ [])
    (hB : 1 ≤ s.buf_size) (hiter : s.iter = rows.map Except.ok)
    (hcr : s.rowbuf.length ≤ s.current_row) :
    runTrace n d s = runTrace n (d + s.rowbuf.length)
      { s with rowbuf := rows.take s.buf_size,
               iter := (rows.drop s.buf_size).map Except.ok,
               current_row := 0, current_col := 0 } := by
  obtain ⟨m, rfl⟩ : ∃ m, n = m + 1 := ⟨n - 1, by omega⟩
  have hpl : produceLoc s = produceLoc
      { s with rowbuf := rows.take s.buf_size,
               iter := (rows.drop s.buf_size).map Except.ok,
               current_row := 0, current_col := 0 } := by
    rw [produceLoc, produceLoc, next_loc_refill s rows hrows hB hiter hcr]
  have htlen : ¬ ((rows.take s.buf_size).length ≤ 0) := by
    have h1 : 0 < rows.length := List.length_pos.mpr hrows
    simp only [List.length_take, Nat.not_le]
    omega
  rw [runTrace]
  conv_rhs => rw [runTrace]
  simp only [hpl, if_pos hcr]
  rw [if_neg htlen]

/-- `rowMajorRows` splits additively over the row count. -/
theorem rowMajorRows_add (b c : Nat) :
    ∀ (r0 a : Nat),
    rowMajorRows r0 (a + b) c = rowMajorRows r0 a c ++ rowMajorRows (r0 + a) b c := by
  intro r0 a
  induction a generalizing r0 with
  | zero => simp [rowMajorRows]
  | succ a ih =>
    have h1 : a + 1 + b = (a + b) + 1 := by omega
    rw [h1, rowMajorRows, rowMajorRows, ih (r0 + 1), List.append_assoc]
    have h2 : r0 + 1 + a = r0 + (a + 1) := by omega
    rw [h2]

/-- Running exactly `rows.length * ncols` produce calls from a state at
a buffer boundary with `rows` pending consumes all pending rows in
row-major order. -/
theorem full_run {α : Type} (N : Nat) :
    ∀ (rows : List (List (Option α))), rows.length ≤ N →
    ∀ (s : ParserState α) (d : Nat), s.ncols ≠ 0 → 1 ≤ s.buf_size →
    s.current_col = 0 → s.current_row = s.rowbuf.length →
    s.iter = rows.map Except.ok →
    ∃ d2 s2, runTrace (rows.length * s.ncols) d s =
      (.ok (rowMajorRows (d + s.rowbuf.length) rows.length s.ncols), d2, s2) := by
  induction N with
  | zero =>
    intro rows hlen s d hC hB hcc hcr hiter
    have hnil : rows = [] := List.length_eq_zero.mp (Nat.le_zero.mp hlen)
    subst hnil
    exact ⟨d, s, by simp [runTrace, rowMajorRows]⟩
  | succ N ih =>
    intro rows hlen s d hC hB hcc hcr hiter
    by_cases hrows0 : rows = []
    · subst hrows0
      exact ⟨d, s, by simp [runTrace, rowMajorRows]⟩
    have hrows : rows ≠ [] := hrows0
    have hrlen : 0 < rows.length := List.length_pos.mpr hrows
    have hn1 : 1 ≤ rows.length * s.ncols :=
      Nat.one_le_iff_ne_zero.mpr (Nat.mul_ne_zero (by omega) hC)
    rw [runTrace_refill_eq (rows.length * s.ncols) hn1 d s rows hrows hB hiter
      (Nat.le_of_eq hcr.symm)]
    have hLpos : 0 < (rows.take s.buf_size).length := by
      simp only [List.length_take]
      omega
    have hsum : rows.length =
        (rows.take s.buf_size).length + (rows.drop s.buf_size).length := by
      simp only [List.length_take, List.length_drop]
      omega
    rw [hsum, Nat.add_mul, runTrace_add]
    have hbr := buf_run (rows.take s.buf_size).length
      { s with rowbuf := rows.take s.buf_size,
               iter := (rows.drop s.buf_size).map Except.ok,
               current_row := 0, current_col := 0 }
      (d + s.rowbuf.length) hC rfl (by simp)
    dsimp only at hbr
    rw [hbr]
    simp only []
    have hdle : (rows.drop s.buf_size).length ≤ N := by
      simp only [List.length_drop]
      omega
    obtain ⟨d2, s2, hrest⟩ := ih (rows.drop s.buf_size)
      hdle
      { s with rowbuf := rows.take s.buf_size,
               iter := (rows.drop s.buf_size).map Except.ok,
               current_row := (rows.take s.buf_size).length, current_col := 0 }
      (d + s.rowbuf.length) hC hB rfl rfl rfl
    dsimp only at hrest
    rw [hrest]
    refine ⟨d2, s2, ?_⟩
    rw [rowMajorRows_add (rows.drop s.buf_size).length s.ncols
      (d + s.rowbuf.length) (rows.take s.buf_size).length]
    simp

/-- The row-major position list is the graph of `k ↦ (k / C, k % C)`. -/
theorem rowMajorRows_eq_range (C : Nat) (hC : C ≠ 0) :
    ∀ (R r0 : Nat), rowMajorRows r0 R C =
      (List.range (R * C)).map fun k => (r0 + k / C, k % C) := by
  intro R
  induction R with
  | zero => intro r0; simp [rowMajorRows]
  | succ R ih =>
    intro r0
    have hsplit : (R + 1) * C = C + R * C := by ring
    rw [rowMajorRows, hsplit, List.range_add, List.map_append, List.map_map, ih]
    congr 1
    · apply List.map_congr_left
      intro k hk
      have hkC : k < C := List.mem_range.mp hk
      rw [Nat.div_eq_of_lt hkC, Nat.mod_eq_of_lt hkC, Nat.add_zero]
    · apply List.map_congr_left
      intro k _
      simp only [Function.comp_apply]
      rw [Nat.add_div_left k (Nat.pos_of_ne_zero hC), Nat.add_mod_left]
      congr 1
      omega

/-- A successful run of `n` produce calls records exactly `n`
positions. -/
theorem runTrace_ok_length {α : Type} (n : Nat) :
    ∀ (d : Nat) (s : ParserState α) (ps : List (Nat × Nat)) (d2 : Nat)
      (s2 : ParserState α),
    runTrace n d s = (.ok ps, d2, s2) → ps.length = n := by
  induction n with
  | zero =>
    intro d s ps d2 s2 h
    rw [runTrace] at h
    cases h
    rfl
  | succ n ih =>
    intro d s ps d2 s2 h
    rw [runTrace] at h
    rcases hp : produceLoc s with ⟨res, s1⟩
    rw [hp] at h
    cases res with
    | ok rv =>
      simp only [] at h
      rcases hr : runTrace n (if s.rowbuf.length ≤ s.current_row
          then d + s.rowbuf.length else d) s1 with ⟨res1, d3, s3⟩
      rw [hr] at h
      cases res1 with
      | ok qs =>
        cases h
        simp [ih _ _ _ _ _ hr]
      | error e => cases h
      | panicked => cases h
    | error e => cases h
    | panicked => cases h

/-- Claim C6: for a parser over a schema with at least one column (and a
positive buffer size), the sequence of logical cell positions consumed
by `n` successive successful produce calls (`n` at most the driver's
total cell count) is exactly row-major order: the `k`-th successful
produce reads logical cell `(k / C, k % C)` where `C` is the column
count, and the consumed positions are pairwise distinct, so each cell is
read exactly once. -/
theorem c6_row_major {α : Type} (rows : List (List (Option α)))
    (schema : List MysqlTypeSystem) (B n : Nat)
    (hC : 1 ≤ schema.length) (hB : 1 ≤ B)
    (hn : n ≤ rows.length * schema.length) :
    ∃ d2 s2, runTrace n 0 (newParser (rows.map Except.ok) schema B) =
        (.ok ((List.range n).map fun k =>
          (k / schema.length, k % schema.length)), d2, s2) ∧
      ((List.range n).map fun k =>
        (k / schema.length, k % schema.length)).Nodup := by
  have hC0 : schema.length ≠ 0 := by omega
  obtain ⟨d2, s2, hfull⟩ := full_run (α := α) rows.length rows (Nat.le_refl _)
    (newParser (rows.map Except.ok) schema B) 0 hC0 hB rfl rfl rfl
  have hbase : 0 + (newParser (α := α)
      (rows.map Except.ok) schema B).rowbuf.length = 0 := rfl
  rw [hbase] at hfull
  have hncols : (newParser (α := α)
      (rows.map Except.ok) schema B).ncols = schema.length := rfl
  rw [hncols] at hfull
  have hsplit : rows.length * schema.length =
      n + (rows.length * schema.length - n) := by omega
  rw [hsplit, runTrace_add] at hfull
  rcases hpre : runTrace n 0 (newParser (rows.map Except.ok) schema B)
    with ⟨res, d1, s1⟩
  rw [hpre] at hfull
  cases res with
  | panicked => simp at hfull
  | error e => simp at hfull
  | ok ps =>
    simp only [] at hfull
    rcases hrest : runTrace (rows.length * schema.length - n) d1 s1
      with ⟨res2, d3, s3⟩
    rw [hrest] at hfull
    cases res2 with
    | panicked => simp at hfull
    | error e => simp at hfull
    | ok qs =>
      simp only [Prod.mk.injEq, StepResult.ok.injEq] at hfull
      have happ : ps ++ qs = rowMajorRows 0 rows.length schema.length := hfull.1
      have hlen : ps.length = n := runTrace_ok_length n _ _ _ _ _ hpre
      have h2 : rowMajorRows 0 rows.length schema.length =
          (List.range (rows.length * schema.length)).map fun k =>
            (k / schema.length, k % schema.length) := by
        rw [rowMajorRows_eq_range _ hC0]
        simp
      have hps : ps = (List.range n).map fun k =>
          (k / schema.length, k % schema.length) := by
        have h1 : (ps ++ qs).take n = ps := by
          rw [← hlen, List.take_left]
        rw [happ, h2] at h1
        rw [← h1, ← List.map_take, List.take_range, Nat.min_eq_left hn]
      have hnodup : ((List.range n).map fun k =>
          (k / schema.length, k % schema.length)).Nodup := by
        apply List.Nodup.map_on
        · intro x hx y hy hxy
          have h1 := Nat.div_add_mod x schema.length
          have h2 := Nat.div_add_mod y schema.length
          simp only [Prod.mk.injEq] at hxy
          calc x = schema.length * (x / schema.length) + x % schema.length :=
                h1.symm
            _ = schema.length * (y / schema.length) + y % schema.length := by
                rw [hxy.1, hxy.2]
            _ = y := h2
        · exact List.nodup_range n
      exact ⟨d1, s1, by rw [hps], hnodup⟩

/-- Witness for `c6_row_major`: a two-column parser over two driver rows
with buffer size 1 (forcing a refill between the rows) produces the four
cells at logical positions `(0,0), (0,1), (1,0), (1,1)`. -/
theorem c6_row_major_witness :
    ∃ d2 s2, runTrace 4 0 (newParser
        ([[some (1 : Nat), some 2], [some 3, some 4]].map Except.ok)
        [MysqlTypeSystem.long false, MysqlTypeSystem.varChar false] 1) =
        (.ok ((List.range 4).map fun k => (k / 2, k % 2)), d2, s2) ∧
      ((List.range 4).map fun k => (k / 2, k % 2)).Nodup :=
  c6_row_major [[some 1, some 2], [some 3, some 4]]
    [MysqlTypeSystem.long false, MysqlTypeSystem.varChar false] 1 4
    (by decide) (by decide) (by decide)

/-- The Arrow data types used by `arrow_assoc.rs` (variants of the
external `arrow::datatypes::DataType` enumeration that appear there,
plus `Int32`, the element type of `Int32Builder`). -/
inductive ArrowDataType
  | uint64
  | int64
  | int32
  | float64
  | boolean
  | utf8
deriving DecidableEq

/-- An `arrow::datatypes::Field`: name, data type, nullability. -/
structure Field where
  name : String
  dataType : ArrowDataType
  nullable : Bool
deriving DecidableEq

/-- The transport types for which `arrow_assoc.rs` provides an
`ArrowAssoc` implementation. -/
inductive TransportType
  | i32
  | optI32
  | i64
  | optI64
  | f64
  | optF64
  | boolean
  | optBoolean
  | str
  | optStr
  | dateTimeUtc
  | optDateTimeUtc
  | dateUtc
  | optDateUtc
deriving DecidableEq

/-- The Arrow array builder types appearing as `type Builder` in
`arrow_assoc.rs`. -/
inductive BuilderKind
  | int32Builder
  | int64Builder
  | float64Builder
  | booleanBuilder
  | stringBuilder
deriving DecidableEq

/-- The element data type of the array each builder kind materializes
(the association made by the external arrow crate: `Int32Builder`
builds `Int32` arrays, and so on). -/
def BuilderKind.elemType : BuilderKind → ArrowDataType
  | .int32Builder => .int32
  | .int64Builder => .int64
  | .float64Builder => .float64
  | .booleanBuilder => .boolean
  | .stringBuilder => .utf8

/-- The associated `type Builder` declared by each `ArrowAssoc` impl in
arrow_assoc.rs.  The `DateTime<Utc>` / `Date<Utc>` impls declare
`Float64Builder` even though all their methods are `unimplemented!`. -/
def ArrowAssoc.builderType : TransportType → BuilderKind
  | .i32 | .optI32 => .int32Builder
  | .i64 | .optI64 => .int64Builder
  | .f64 | .optF64 => .float64Builder
  | .boolean | .optBoolean => .booleanBuilder
  | .str | .optStr => .stringBuilder
  | .dateTimeUtc | .optDateTimeUtc | .dateUtc | .optDateUtc => .float64Builder

/-- The `ArrowAssoc::builder(nrows)` method of each impl: the
constructed builder (its kind and requested capacity), or `none` for
the `unimplemented!()` (panicking) date/datetime impls
(arrow_assoc.rs lines 192-254). -/
def ArrowAssoc.builder : TransportType → Nat → Option (BuilderKind × Nat)
  | .dateTimeUtc, _ | .optDateTimeUtc, _ | .dateUtc, _ | .optDateUtc, _ => none
  | t, nrows => some (ArrowAssoc.builderType t, nrows)

/-- The `ArrowAssoc::field(header)` method of each impl, transcribing
the `Field::new(header, data_type, nullable)` calls of arrow_assoc.rs
verbatim (including the `UInt64` data type of the `i32` impls and the
`false` nullability of the `Option<i64>` impl), or `none` for the
`unimplemented!()` (panicking) date/datetime impls. -/
def ArrowAssoc.field : TransportType → String → Option Field
  | .i32, header => some ⟨header, .uint64, false⟩
  | .optI32, header => some ⟨header, .uint64, true⟩
  | .i64, header => some ⟨header, .int64, false⟩
  | .optI64, header => some ⟨header, .int64, false⟩
  | .f64, header => some ⟨header, .float64, false⟩
  | .optF64, header => some ⟨header, .float64, true⟩
  | .boolean, header => some ⟨header, .boolean, false⟩
  | .optBoolean, header => some ⟨header, .boolean, true⟩
  | .str, header => some ⟨header, .utf8, false⟩
  | .optStr, header => some ⟨header, .utf8, true⟩
  | .dateTimeUtc, _ | .optDateTimeUtc, _ | .dateUtc, _ | .optDateUtc, _ => none

/-- Whether the `ArrowAssoc::append` method of an impl is implemented:
`false` for the date/datetime impls, whose `append` is an unconditional
`unimplemented!()` panic; the other impls append the value (or, for
option types, the value-or-null) to the builder. -/
def ArrowAssoc.appendImplemented : TransportType → Bool
  | .dateTimeUtc | .optDateTimeUtc | .dateUtc | .optDateUtc => false
  | _ => true

/-- Claim C2 evaluated at its failing input: the `ArrowAssoc` impl for
`Option<i64>` declares its `Field` with nullability `false`, so the
destination column built for the nullable transport type `Option<i64>`
is declared non-nullable, contradicting the invariant that destination
nullability equals the nullability of the transported schema type. -/
theorem c2_option_i64_field :
    ArrowAssoc.field .optI64 "c" = some ⟨"c", .int64, false⟩ ∧
      (ArrowAssoc.field .optI64 "c").map Field.nullable ≠ some true ∧
      (ArrowAssoc.field .optF64 "c").map Field.nullable = some true :=
  ⟨rfl, by decide, rfl⟩

/-- Claim C9: for the transport types `DateTime<Utc>`, `Date<Utc>`,
`Option<DateTime<Utc>>` and `Option<Date<Utc>>`, every `ArrowAssoc`
operation — `builder`, `append` and `field` — panics unconditionally
(`unimplemented!`), so no transfer using a date or datetime transport
type into the Arrow destination can complete. -/
theorem c9_datetime_unimplemented :
    ∀ (header : String) (nrows : Nat),
      (ArrowAssoc.field .dateTimeUtc header = none ∧
        ArrowAssoc.builder .dateTimeUtc nrows = none ∧
        ArrowAssoc.appendImplemented .dateTimeUtc = false) ∧
      (ArrowAssoc.field .optDateTimeUtc header = none ∧
        ArrowAssoc.builder .optDateTimeUtc nrows = none ∧
        ArrowAssoc.appendImplemented .optDateTimeUtc = false) ∧
      (ArrowAssoc.field .dateUtc header = none ∧
        ArrowAssoc.builder .dateUtc nrows = none ∧
        ArrowAssoc.appendImplemented .dateUtc = false) ∧
      (ArrowAssoc.field .optDateUtc header = none ∧
        ArrowAssoc.builder .optDateUtc nrows = none ∧
        ArrowAssoc.appendImplemented .optDateUtc = false) := by
  intro header nrows
  exact ⟨⟨rfl, rfl, rfl⟩, ⟨rfl, rfl, rfl⟩, ⟨rfl, rfl, rfl⟩, ⟨rfl, rfl, rfl⟩⟩

/-- Claim C10 evaluated at its failing input: the `ArrowAssoc` impl for
`i32` declares a `UInt64` field while its builder is an `Int32Builder`
(element type `Int32`), so the declared destination schema does not
match the materialized column type. -/
theorem c10_i32_field_mismatch :
    ArrowAssoc.field .i32 "c" = some ⟨"c", .uint64, false⟩ ∧
      ArrowAssoc.builder .i32 5 = some (.int32Builder, 5) ∧
      BuilderKind.elemType .int32Builder = .int32 ∧
      (ArrowAssoc.field .i32 "c").map Field.dataType ≠
        (ArrowAssoc.builder .i32 5).map fun b => b.1.elemType :=
  ⟨rfl, rfl, rfl, by decide⟩

end ConnectorX
